import Mathlib

/- Verification development for the hermes personal event scheduler.

   Shallow embedding conventions:
   - Python `datetime` instants are modelled as `Int` seconds since the Unix
     epoch (timezones are not modelled; everything is taken as UTC).
   - Python `timedelta` values are modelled as `Int` seconds.
   - `datetime.min` / `datetime.max` become the integer timestamps of
     0001-01-01T00:00:00 and 9999-12-31T23:59:59 (as in CPython).
   - Fallible Python code (raising exceptions) returns `Except PyErr`.
   - The or-tools CP-SAT model built by `hermes.schedule.ConstraintModel` is
     embedded as an explicit record of variable declarations, optional
     interval declarations and constraints; the external solver is an oracle
     supplying a status and an assignment `VarId -> Int`. -/

/-- Timestamp of CPython `datetime.min` (0001-01-01T00:00:00). -/
def datetimeMin : Int := -62135596800

/-- Timestamp of CPython `datetime.max` (9999-12-31T23:59:59, fractional
second dropped). -/
def datetimeMax : Int := 253402300799

/-- Seconds in CPython `timedelta.max` (999999999 days 23:59:59, fractional
second dropped). -/
def timedeltaMax : Int := 86399999913599

/-- Python exception classes raised by the embedded hermes code. -/
inductive PyErr where
  | valueError (msg : String)
  | attributeError (msg : String)
deriving DecidableEq, Repr

/-- Whether an exception is a (generic) `ValueError`. -/
def PyErr.isValueError : PyErr → Bool
  | .valueError _ => true
  | .attributeError _ => false

/-- Whether an `Except` computation succeeded. -/
def exceptOk {α : Type} : Except PyErr α → Bool
  | .ok _ => true
  | .error _ => false

/-- hermes.span.Span: a time span; `none` bounds signal an unbounded side. -/
structure Span where
  begins_at : Option Int
  finish_at : Option Int
deriving DecidableEq, Repr

/-- hermes.span.Spannable.__contains__ (src/hermes/span.py lines 16-41):
overlap test between two spans, substituting `datetime.min`/`datetime.max`
for missing bounds exactly as the source does. -/
def Spannable.contains (self other : Span) : Bool :=
  let self_begins := self.begins_at.getD datetimeMin
  let other_begins := other.begins_at.getD datetimeMin
  let self_finish := self.finish_at.getD datetimeMax
  let other_finish := other.finish_at.getD datetimeMax
  if other_begins < self_begins then
    decide (other_finish ≥ self_begins)
  else if other_finish > self_finish then
    decide (other_begins ≤ self_finish)
  else
    true

/-- Overlap predicate as the spec sentence for claim C6 words it: two spans
overlap unless one's start is at or after the other's finish (missing bounds
as minus/plus infinity, i.e. `datetime.min`/`datetime.max`). This definition
follows the claim, not the source, and is compared against
`Spannable.contains`. -/
def overlapsClaimC6 (a b : Span) : Bool :=
  let ab := a.begins_at.getD datetimeMin
  let bb := b.begins_at.getD datetimeMin
  let af := a.finish_at.getD datetimeMax
  let bf := b.finish_at.getD datetimeMax
  !(decide (ab ≥ bf) || decide (bb ≥ af))

/-- hermes.span.Span.duration (src/hermes/span.py lines 79-84):
`timedelta.max` when a bound is missing, otherwise `finish_at - begins_at`. -/
def Span.durationInt (s : Span) : Int :=
  match s.begins_at, s.finish_at with
  | some b, some f => f - b
  | some _, none => timedeltaMax
  | none, some _ => timedeltaMax
  | none, none => timedeltaMax

/-- Loop body of hermes.span.Span.subspans (src/hermes/span.py lines 86-93),
run with explicit fuel: while `start < final_finish`, yield
`Span(start, min (start + duration) final_finish)` and move the cursor to
that finish. The source generator has no fuel; a fuel bound makes each
finite prefix of its output inspectable, and termination of the source loop
corresponds to the output being independent of any sufficiently large fuel. -/
def Span.subspansAux (duration : Int) : Nat → Int → Int → List Span
  | 0, _, _ => []
  | Nat.succ n, start, final_finish =>
    if start < final_finish then
      let finish := min (start + duration) final_finish
      Span.mk (some start) (some finish) :: Span.subspansAux duration n finish final_finish
    else []

/-- hermes.span.Span.subspans run with fuel `(final_finish - start).toNat`,
which is enough for every positive integer duration (each iteration advances
the cursor by at least one second). -/
def Span.subspans (s : Span) (duration : Int) : List Span :=
  let start := s.begins_at.getD datetimeMin
  let final_finish := s.finish_at.getD datetimeMax
  Span.subspansAux duration (final_finish - start).toNat start final_finish

/-- Loop of hermes.span.Span.dates_between (src/hermes/span.py lines
109-128), with days represented by their index (days since the epoch):
starting from the date of `begins_at`, yield days while the day's midnight
is before `finish_at`. Run with explicit fuel. -/
def Span.dates_betweenAux : Nat → Int → Int → List Int
  | 0, _, _ => []
  | Nat.succ n, day, fin =>
    if day * 86400 < fin then day :: Span.dates_betweenAux n (day + 1) fin else []

/-- hermes.span.Span.dates_between with fuel sufficient for the finite spans
the scheduler uses it on. -/
def Span.dates_between (s : Span) : List Int :=
  let b := s.begins_at.getD datetimeMin
  let f := s.finish_at.getD datetimeMax
  let d0 := Int.fdiv b 86400
  Span.dates_betweenAux ((f - d0 * 86400).toNat / 86400 + 1) d0 f

/-- First-character class of the category name pattern `[a-zA-Z]`. -/
def identCharFirst (c : Char) : Bool :=
  (decide ('a' ≤ c) && decide (c ≤ 'z')) || (decide ('A' ≤ c) && decide (c ≤ 'Z'))

/-- Rest class of the category name pattern `[a-zA-Z0-9:\- ]` (note: no
underscore in the source pattern). -/
def identCharRest (c : Char) : Bool :=
  identCharFirst c || (decide ('0' ≤ c) && decide (c ≤ '9')) ||
    decide (c = ':') || decide (c = '-') || decide (c = ' ')

/-- Semantics of `re.match(r"[a-zA-Z][a-zA-Z0-9:\- ]*$", value)` from
hermes.tag.Category._check_name (src/hermes/tag.py lines 18-22):
the match is anchored at the start, consumes one first-class character and
then rest-class characters, and Python's `$` accepts either the end of the
string or a position just before a single trailing newline. -/
def categoryPatternMatch (s : List Char) : Prop :=
  ∃ c body tail, s = c :: (body ++ tail) ∧ identCharFirst c = true ∧
    (∀ x ∈ body, identCharRest x = true) ∧ (tail = [] ∨ tail = ['\n'])

/-- Executable decision procedure for `categoryPatternMatch`: drop one
trailing newline if present, then require a nonempty remainder whose head is
a letter and whose tail is all rest-class characters. -/
def categoryCheckImpl (s : List Char) : Bool :=
  let core := if s.getLast? = some '\n' then s.dropLast else s
  match core with
  | [] => false
  | c :: rest => identCharFirst c && rest.all identCharRest

/-- hermes.tag.Category (src/hermes/tag.py lines 13-44). -/
inductive Category : Type where
  | mk : String → Option Category → Category

/-- Name component of a `Category`. -/
def Category.name : Category → String
  | .mk n _ => n

/-- hermes.tag.Category._check_name (src/hermes/tag.py lines 18-22): raise
`ValueError` unless the name matches the identifier pattern.
`categoryCheckImpl` is proved equivalent to the regex semantics
`categoryPatternMatch` in the theorem section below. -/
def Category.check_name (value : String) : Except PyErr Unit :=
  if categoryCheckImpl value.toList then Except.ok ()
  else Except.error (PyErr.valueError ("Category name " ++ value ++ " must match pattern"))

/-- Construction of a `Category`: the attrs validator runs at construction
time, so an invalid name fails the constructor itself. -/
def Category.make (name : String) (parent : Option Category) : Except PyErr Category :=
  match Category.check_name name with
  | .error e => Except.error e
  | .ok _ => Except.ok (Category.mk name parent)

/-- Validity of a category name as claim C7 words it: nonempty, leading
letter, and every character inside `[A-Za-z0-9:_- ]` (letters, digits,
colon, underscore, hyphen, space). This definition follows the claim, not
the source, and is compared against `Category.make`. -/
def c7ClaimedValid (s : List Char) : Bool :=
  match s with
  | [] => false
  | c :: _ => identCharFirst c && s.all (fun x => identCharRest x || decide (x = '_'))

/-- Validity of a category name as the amended claim C7 words it: after
discarding at most one trailing newline (which the pattern's `$` tolerates),
the name must be nonempty, begin with an ASCII letter, and contain only
characters from `[A-Za-z0-9:- ]` — underscore is not allowed. -/
def c7AmendedValid (s : List Char) : Bool :=
  let core := if s.getLast? = some '\n' then s.dropLast else s
  match core with
  | [] => false
  | c :: rest => identCharFirst c && rest.all identCharRest

/-- hermes.tag.Tag (src/hermes/tag.py lines 108-113); the category field
(defaulting to `Category("No Category", None)`) plays no role in the claims
under verification and is omitted. -/
structure Tag where
  name : String
  valid_from : Option Int
  valid_to : Option Int
deriving DecidableEq, Repr

/-- hermes.tag.BaseTag.span (src/hermes/tag.py lines 80-84): the source
substitutes `dt.datetime.max` for a missing bound on BOTH sides
(`self.valid_from or dt.datetime.max`, `self.valid_to or dt.datetime.max`). -/
def Tag.span (t : Tag) : Span :=
  Span.mk (some (t.valid_from.getD datetimeMax)) (some (t.valid_to.getD datetimeMax))

/- Constraint model (hermes.schedule.ConstraintModel, src/hermes/schedule.py
   lines 343-443): a wrapper over the or-tools CP-SAT model. Variables are
   identified by their creation index; each carries the name and bounds the
   source gives it. -/

abbrev VarId := Nat

/-- cp_model.INT32_MAX. -/
def INT32_MAX : Int := 2147483647

/-- cp_model.INT32_MIN. -/
def INT32_MIN : Int := -2147483648

/-- Default upper bound used by ConstraintModel.make_var:
`cp_model.INT32_MAX * 32`. -/
def MAKE_VAR_UB : Int := INT32_MAX * 32

/-- Linear expressions appearing in the constraints the source builds. -/
inductive LinExpr where
  | var (v : VarId)
  | const (k : Int)
  | add (a b : LinExpr)
  | sub (a b : LinExpr)
  | mulConst (a : LinExpr) (k : Int)
  | sumVars (vs : List VarId)
deriving DecidableEq, Repr

/-- Comparison operators of the linear constraints the source builds. -/
inductive CmpOp where
  | eq | le | lt | ge | gt
deriving DecidableEq, Repr

/-- An OnlyEnforceIf literal: a boolean variable or (when `positive` is
false) its negation. -/
structure Sentinel where
  var : VarId
  positive : Bool
deriving DecidableEq, Repr

/-- An optional interval created by cp_model.NewOptionalIntervalVar: when the
presence literal is true, `start + size = stop` is enforced and the interval
participates in AddNoOverlap. -/
structure IntervalDecl where
  start : VarId
  size : Int
  stop : VarId
  presence : VarId
deriving DecidableEq, Repr

/-- The constraint forms emitted by the hermes scheduler. -/
inductive Constraint where
  | lin (lhs : LinExpr) (rel : CmpOp) (rhs : LinExpr) (sentinel : Option Sentinel)
  | absEq (target : VarId) (e : LinExpr) (sentinel : Option Sentinel)
  | minEq (target : VarId) (a b : VarId)
  | maxEq (target : VarId) (a b : VarId)
  | noOverlap (intervals : List IntervalDecl)
deriving DecidableEq, Repr

/-- A variable declaration: name (as built by the source's f-strings, kept
for reference) and bounds. -/
structure VarDecl where
  name : String
  lb : Int
  ub : Int
deriving DecidableEq, Repr

/-- hermes.schedule.ConstraintModel state: declared variables (the VarId of a
variable is its index in `vars`), declared optional intervals, constraints,
and the objective (score variables, maximize flag). -/
structure ConstraintModel where
  vars : List VarDecl
  intervals : List IntervalDecl
  constraints : List Constraint
  objective : Option (List VarId × Bool)
deriving DecidableEq, Repr

/-- ConstraintModel.__init__. -/
def ConstraintModel.empty : ConstraintModel := ConstraintModel.mk [] [] [] none

/-- ConstraintModel.make_var (src/hermes/schedule.py lines 350-362): a
boolean variable is a 0/1 variable, otherwise bounds are as given (the
source defaults are lower bound 0 and upper bound `INT32_MAX * 32`). -/
def ConstraintModel.make_var (m : ConstraintModel) (name : String) (boolean : Bool)
    (lower_bound upper_bound : Int) : VarId × ConstraintModel :=
  let vd := if boolean then VarDecl.mk name 0 1 else VarDecl.mk name lower_bound upper_bound
  (m.vars.length, { m with vars := m.vars ++ [vd] })

/-- ConstraintModel.make_interval (src/hermes/schedule.py lines 364-376):
NewOptionalIntervalVar(start, duration seconds, stop, is_present, name). -/
def ConstraintModel.make_interval (m : ConstraintModel) (start : VarId) (duration : Int)
    (stop : VarId) (is_present : VarId) : IntervalDecl × ConstraintModel :=
  let d := IntervalDecl.mk start duration stop is_present
  (d, { m with intervals := m.intervals ++ [d] })

/-- ConstraintModel.add (src/hermes/schedule.py lines 378-385): add a linear
constraint, optionally gated by a sentinel literal (OnlyEnforceIf). -/
def ConstraintModel.add (m : ConstraintModel) (lhs : LinExpr) (rel : CmpOp) (rhs : LinExpr)
    (sentinel : Option Sentinel) : ConstraintModel :=
  { m with constraints := m.constraints ++ [Constraint.lin lhs rel rhs sentinel] }

/-- ConstraintModel.add_abs (src/hermes/schedule.py lines 387-395):
AddAbsEquality(target, expression), optionally gated. -/
def ConstraintModel.add_abs (m : ConstraintModel) (target : VarId) (e : LinExpr)
    (sentinel : Option Sentinel) : ConstraintModel :=
  { m with constraints := m.constraints ++ [Constraint.absEq target e sentinel] }

/-- ConstraintModel.min_equality (src/hermes/schedule.py lines 431-436): a
fresh variable (with make_var's default bounds) constrained to the minimum
of the two arguments. -/
def ConstraintModel.min_equality (m : ConstraintModel) (first second : VarId) :
    VarId × ConstraintModel :=
  let p := m.make_var "ConstraintModel_min" false 0 MAKE_VAR_UB
  (p.1, { p.2 with constraints := p.2.constraints ++ [Constraint.minEq p.1 first second] })

/-- ConstraintModel.max_equality (src/hermes/schedule.py lines 438-443). -/
def ConstraintModel.max_equality (m : ConstraintModel) (first second : VarId) :
    VarId × ConstraintModel :=
  let p := m.make_var "ConstraintModel_max" false 0 MAKE_VAR_UB
  (p.1, { p.2 with constraints := p.2.constraints ++ [Constraint.maxEq p.1 first second] })

/-- Value of a linear expression under an assignment. -/
def LinExpr.eval (sol : VarId → Int) : LinExpr → Int
  | .var v => sol v
  | .const k => k
  | .add a b => a.eval sol + b.eval sol
  | .sub a b => a.eval sol - b.eval sol
  | .mulConst a k => a.eval sol * k
  | .sumVars vs => (vs.map sol).sum

/-- Truth of a comparison between two integers. -/
def CmpOp.holds (r : CmpOp) (a b : Int) : Bool :=
  match r with
  | .eq => decide (a = b)
  | .le => decide (a ≤ b)
  | .lt => decide (a < b)
  | .ge => decide (b ≤ a)
  | .gt => decide (b < a)

/-- Whether a sentinel literal is active under an assignment (OnlyEnforceIf:
the gated constraint is binding exactly when the literal holds). -/
def sentinelActive (sol : VarId → Int) : Option Sentinel → Bool
  | none => true
  | some st => if st.positive then decide (sol st.var = 1) else decide (sol st.var = 0)

/-- Semantics of an optional interval declaration: when present,
`start + size = stop`. -/
def IntervalDecl.holds (sol : VarId → Int) (d : IntervalDecl) : Bool :=
  !(decide (sol d.presence = 1)) || decide (sol d.start + d.size = sol d.stop)

/-- Two optional intervals do not overlap in time unless one is absent. -/
def IntervalDecl.disjointWith (sol : VarId → Int) (a b : IntervalDecl) : Bool :=
  !(decide (sol a.presence = 1) && decide (sol b.presence = 1)) ||
    (decide (sol a.stop ≤ sol b.start) || decide (sol b.stop ≤ sol a.start))

/-- AddNoOverlap semantics: pairwise disjointness of the present intervals. -/
def pairwiseDisjoint (sol : VarId → Int) : List IntervalDecl → Bool
  | [] => true
  | d :: rest => rest.all (fun d2 => IntervalDecl.disjointWith sol d d2) && pairwiseDisjoint sol rest

/-- Truth of one constraint under an assignment. -/
def Constraint.holds (sol : VarId → Int) : Constraint → Bool
  | .lin lhs r rhs sent => !(sentinelActive sol sent) || CmpOp.holds r (lhs.eval sol) (rhs.eval sol)
  | .absEq t e sent => !(sentinelActive sol sent) || decide (sol t = |LinExpr.eval sol e|)
  | .minEq t a b => decide (sol t = min (sol a) (sol b))
  | .maxEq t a b => decide (sol t = max (sol a) (sol b))
  | .noOverlap ds => pairwiseDisjoint sol ds

/-- Bounds check for a list of variable declarations starting at a given
index. -/
def varsOk (sol : VarId → Int) : Nat → List VarDecl → Bool
  | _, [] => true
  | i, vd :: rest => (decide (vd.lb ≤ sol i) && decide (sol i ≤ vd.ub)) && varsOk sol (i + 1) rest

/-- An assignment satisfies a model when every declared variable is within
its bounds, every declared optional interval is consistent, and every
constraint holds. This is what the external CP-SAT solver guarantees about
any FEASIBLE or OPTIMAL assignment it returns. -/
def ConstraintModel.satisfied (m : ConstraintModel) (sol : VarId → Int) : Bool :=
  varsOk sol 0 m.vars && m.intervals.all (IntervalDecl.holds sol) &&
    m.constraints.all (Constraint.holds sol)

/- Event (hermes.schedule.Event, src/hermes/schedule.py lines 29-154).
   Python stores direct object references in `_not_within` and `_after`;
   since only the referenced events' immutable start/stop variables are read,
   the embedding stores those variable ids. -/

/-- hermes.schedule.Event. `byT` embeds `_by` (a time of day, in seconds
after midnight; `by` is a Lean keyword), `betweenT` embeds `_between`,
`notWithinL` embeds `_not_within` as (other start, other stop, gap seconds),
and `afterL` embeds `_after` as the other events' stop variables. -/
structure Event where
  name : String
  start_time : VarId
  stop_time : VarId
  is_present : VarId
  interval : IntervalDecl
  dont_schedule : Bool
  pinned : Bool
  notWithinL : List (VarId × VarId × Int)
  byT : Option Int
  betweenT : Option (Int × Int)
  afterL : List VarId
deriving DecidableEq, Repr

/-- hermes.schedule.Event.not_within (src/hermes/schedule.py lines 54-59):
for each registered pair, `max(self.start, other.start) -
min(self.stop, other.stop) >= gap`, enforced only when present. -/
def Event.not_within (e : Event) (model : ConstraintModel) : ConstraintModel :=
  e.notWithinL.foldl
    (fun m p =>
      let first_stop := m.min_equality e.stop_time p.2.1
      let last_start := first_stop.2.max_equality e.start_time p.1
      last_start.2.add (LinExpr.sub (LinExpr.var last_start.1) (LinExpr.var first_stop.1))
        CmpOp.ge (LinExpr.const p.2.2) (some (Sentinel.mk e.is_present true)))
    model

/-- Loop of hermes.schedule.Event.by (src/hermes/schedule.py lines 63-68):
for the day list, make a fresh boolean `this_day` and add
`stop_time < combine(day, by_time)` enforced only by `this_day`; return the
indicator list in order. `i` is the running day index (used only in the
variable name, as in the source f-string). -/
def Event.byDays (e : Event) (tB : Int) : Nat → List Int → ConstraintModel →
    List VarId × ConstraintModel
  | _, [], m => ([], m)
  | i, day :: rest, m =>
    let by_time := day * 86400 + tB
    let this_day := m.make_var (e.name ++ "_day_" ++ toString i ++ "_by") true 0 1
    let m2 := this_day.2.add (LinExpr.var e.stop_time) CmpOp.lt (LinExpr.const by_time)
      (some (Sentinel.mk this_day.1 true))
    let res := Event.byDays e tB (i + 1) rest m2
    (this_day.1 :: res.1, res.2)

/-- hermes.schedule.Event.by (src/hermes/schedule.py lines 61-70): when a
`by` rule is set, one indicator per day of the span, and — when the day list
is nonempty — `sum(days) == 1` enforced only when the event is present. -/
def Event.by_rule (e : Event) (model : ConstraintModel) (span : Span) : ConstraintModel :=
  match e.byT with
  | none => model
  | some tB =>
    let days := Event.byDays e tB 0 span.dates_between model
    if days.1.isEmpty then days.2
    else days.2.add (LinExpr.sumVars days.1) CmpOp.eq (LinExpr.const 1)
      (some (Sentinel.mk e.is_present true))

/-- Loop of hermes.schedule.Event.between (src/hermes/schedule.py lines
76-84): per day, a fresh indicator gating `start_time > combine(day, daily_start)`
and `stop_time < combine(day, daily_stop)`. -/
def Event.betweenDays (e : Event) (tStart tStop : Int) : Nat → List Int → ConstraintModel →
    List VarId × ConstraintModel
  | _, [], m => ([], m)
  | i, day :: rest, m =>
    let start := day * 86400 + tStart
    let stop := day * 86400 + tStop
    let this_day := m.make_var (e.name ++ "_day_" ++ toString i ++ "_between") true 0 1
    let m2 := this_day.2.add (LinExpr.var e.start_time) CmpOp.gt (LinExpr.const start)
      (some (Sentinel.mk this_day.1 true))
    let m3 := m2.add (LinExpr.var e.stop_time) CmpOp.lt (LinExpr.const stop)
      (some (Sentinel.mk this_day.1 true))
    let res := Event.betweenDays e tStart tStop (i + 1) rest m3
    (this_day.1 :: res.1, res.2)

/-- hermes.schedule.Event.between (src/hermes/schedule.py lines 72-86). -/
def Event.between_rule (e : Event) (model : ConstraintModel) (span : Span) : ConstraintModel :=
  match e.betweenT with
  | none => model
  | some t =>
    let cons := Event.betweenDays e t.1 t.2 0 span.dates_between model
    if cons.1.isEmpty then cons.2
    else cons.2.add (LinExpr.sumVars cons.1) CmpOp.eq (LinExpr.const 1)
      (some (Sentinel.mk e.is_present true))

/-- hermes.schedule.Event.after (src/hermes/schedule.py lines 88-90):
`start_time > other.stop_time`, enforced only when present. -/
def Event.after (e : Event) (model : ConstraintModel) : ConstraintModel :=
  e.afterL.foldl
    (fun m otherStop =>
      m.add (LinExpr.var e.start_time) CmpOp.gt (LinExpr.var otherStop)
        (some (Sentinel.mk e.is_present true)))
    model

/-- hermes.schedule.Event.pin_to_tag (src/hermes/schedule.py lines 92-102):
on the first pin only, fix `start_time` to the tag's valid_from timestamp
(enforced only when present; the stop-time constraint is commented out in
the source). A missing valid_from makes the source's
`tag.valid_from.timestamp()` raise AttributeError. Returns the updated event
and model. -/
def Event.pin_to_tag (e : Event) (model : ConstraintModel) (tag : Tag) :
    Except PyErr (Event × ConstraintModel) :=
  if e.pinned then Except.ok (e, model)
  else
    match tag.valid_from with
    | none => Except.error (PyErr.attributeError "NoneType object has no attribute timestamp")
    | some vf =>
      Except.ok ({ e with pinned := true },
        model.add (LinExpr.var e.start_time) CmpOp.eq (LinExpr.const vf)
          (some (Sentinel.mk e.is_present true)))

/-- Loop of hermes.schedule.Event.no_pick_first (src/hermes/schedule.py
lines 110-120): for every other event, a fresh boolean `other_is_first`
gating `self.start_time > other.stop_time` and `other.start_time >= pick_after`. -/
def Event.noPickFirstAux (e : Event) (pick_after : Int) : List Event → ConstraintModel →
    List VarId × ConstraintModel
  | [], m => ([], m)
  | ev :: rest, m =>
    if ev.name = e.name then Event.noPickFirstAux e pick_after rest m
    else
      let other_is_first := m.make_var (e.name ++ "_to_" ++ ev.name ++ "_npf") true 0 1
      let m2 := other_is_first.2.add (LinExpr.var e.start_time) CmpOp.gt
        (LinExpr.var ev.stop_time) (some (Sentinel.mk other_is_first.1 true))
      let m3 := m2.add (LinExpr.var ev.start_time) CmpOp.ge (LinExpr.const pick_after)
        (some (Sentinel.mk other_is_first.1 true))
      let res := Event.noPickFirstAux e pick_after rest m3
      (other_is_first.1 :: res.1, res.2)

/-- hermes.schedule.Event.no_pick_first (src/hermes/schedule.py lines
104-122): when any other candidates exist, at least one of them must come
first (sum of the indicators > 0), enforced only when present. -/
def Event.no_pick_first (e : Event) (model : ConstraintModel) (no_pick_first : Int)
    (events : List Event) : ConstraintModel :=
  let res := Event.noPickFirstAux e no_pick_first events model
  if res.1.isEmpty then res.2
  else res.2.add (LinExpr.sumVars res.1) CmpOp.gt (LinExpr.const 0)
    (some (Sentinel.mk e.is_present true))

/-- Loop of hermes.schedule.Event.choose_window (src/hermes/schedule.py
lines 127-138): per candidate window, a fresh indicator gating
`start_time >= window.begins_at` and `stop_time <= window.finish_at`. -/
def Event.chooseWindowAux (e : Event) : Nat → List Span → ConstraintModel →
    List VarId × ConstraintModel
  | _, [], m => ([], m)
  | i, w :: rest, m =>
    let this_window := m.make_var (e.name ++ "_window_" ++ toString i) true 0 1
    let m2 := this_window.2.add (LinExpr.var e.start_time) CmpOp.ge
      (LinExpr.const (w.begins_at.getD datetimeMin)) (some (Sentinel.mk this_window.1 true))
    let m3 := m2.add (LinExpr.var e.stop_time) CmpOp.le
      (LinExpr.const (w.finish_at.getD datetimeMax)) (some (Sentinel.mk this_window.1 true))
    let res := Event.chooseWindowAux e (i + 1) rest m3
    (this_window.1 :: res.1, res.2)

/-- hermes.schedule.Event.choose_window (src/hermes/schedule.py lines
124-140): exactly one window indicator true, enforced only when present
(and only when the window list is nonempty). -/
def Event.choose_window (e : Event) (model : ConstraintModel) (windows : List Span) :
    ConstraintModel :=
  let res := Event.chooseWindowAux e 0 windows model
  if res.1.isEmpty then res.2
  else res.2.add (LinExpr.sumVars res.1) CmpOp.eq (LinExpr.const 1)
    (some (Sentinel.mk e.is_present true))

/-- hermes.schedule.Event.score (src/hermes/schedule.py lines 142-154): the
base score of an event is its presence indicator. -/
def Event.score (e : Event) : VarId := e.is_present

/- Schedule (hermes.schedule.Schedule, src/hermes/schedule.py lines 157-317).
   The events dict is embedded as an insertion-ordered list with unique
   names (Python dicts preserve insertion order). -/

/-- hermes.schedule.Schedule state: the single-use constraint model and the
named event registry. -/
structure Schedule where
  model : ConstraintModel
  events : List Event
deriving DecidableEq, Repr

/-- Schedule.__init__. -/
def Schedule.new : Schedule := Schedule.mk ConstraintModel.empty []

/-- Schedule.DEFAULT_DURATION (30 minutes, in seconds). -/
def DEFAULT_DURATION : Int := 1800

/-- Replace the event with the given name (Python mutates the shared Event
object in place; the embedding rewrites the registry entry). -/
def updateEvent (evs : List Event) (name : String) (f : Event → Event) : List Event :=
  evs.map (fun e => if e.name = name then f e else e)

/-- hermes.schedule.Schedule.event_windows (src/hermes/schedule.py lines
167-168): the base Schedule offers the overall span as the only window. -/
def Schedule.event_windows (span : Span) : List Span := [span]

/-- hermes.schedule.Schedule.add_event (src/hermes/schedule.py lines
170-228): reject duplicate names; create start/stop/presence variables
(forcing presence when not optional) and the optional interval; wire
`between` / `by` (both set is a ValueError) and `after` (whose target must
already be registered). On the source's error paths some variables have
already been created before the raise; the embedding discards that
partially-mutated state, and no claim depends on it. -/
def Schedule.add_event (s : Schedule) (name : String) (duration : Option Int)
    (optional : Bool) (between : Option (Int × Int)) (afterE : Option Event)
    (byT : Option Int) : Except PyErr (Event × Schedule) :=
  if s.events.any (fun e => e.name = name) then
    Except.error (PyErr.valueError ("Already have a defined event called " ++ name))
  else
    let dur := duration.getD DEFAULT_DURATION
    let start_time := s.model.make_var (name ++ "_start_time") false 0 MAKE_VAR_UB
    let stop_time := start_time.2.make_var (name ++ "_stop_time") false 0 MAKE_VAR_UB
    let is_present := stop_time.2.make_var (name ++ "_is_present") true 0 1
    let m4 := if optional then is_present.2
      else is_present.2.add (LinExpr.var is_present.1) CmpOp.eq (LinExpr.const 1) none
    let interval := m4.make_interval start_time.1 dur stop_time.1 is_present.1
    if between.isSome && byT.isSome then
      Except.error (PyErr.valueError "Cannot specify both by and between")
    else
      match afterE with
      | some af =>
        if s.events.any (fun e => e.name = af.name) then
          let ev := Event.mk name start_time.1 stop_time.1 is_present.1 interval.1
            false false [] byT between [af.stop_time]
          Except.ok (ev, Schedule.mk interval.2 (s.events ++ [ev]))
        else Except.error (PyErr.valueError "Somehow, this event does not exist yet.")
      | none =>
        let ev := Event.mk name start_time.1 stop_time.1 is_present.1 interval.1
          false false [] byT between []
        Except.ok (ev, Schedule.mk interval.2 (s.events ++ [ev]))

/-- hermes.schedule.Schedule.not_within (src/hermes/schedule.py lines
230-231): register the rule onto event `a`. -/
def Schedule.not_within (s : Schedule) (a b : Event) (bound : Int) : Schedule :=
  { s with events := (updateEvent s.events a.name
      (fun e => { e with notWithinL := e.notWithinL ++ [(b.start_time, b.stop_time, bound)] })) }

/-- Merge one pre-existing tag (hermes.schedule.Schedule.populate,
src/hermes/schedule.py lines 252-263): a tag whose name matches a declared
event pins that event; a new name creates a non-optional event with the
tag's span duration, marks it `_dont_schedule`, and pins it. -/
def Schedule.mergeTag (sc : Schedule) (tag : Tag) : Except PyErr Schedule :=
  match sc.events.find? (fun e => e.name = tag.name) with
  | some e =>
    match Event.pin_to_tag e sc.model tag with
    | .error err => Except.error err
    | .ok p => Except.ok (Schedule.mk p.2 (updateEvent sc.events tag.name (fun _ => p.1)))
  | none =>
    match sc.add_event tag.name (some tag.span.durationInt) false none none none with
    | .error err => Except.error err
    | .ok p =>
      let ev := { p.1 with dont_schedule := true }
      let sc1 := Schedule.mk p.2.model (updateEvent p.2.events tag.name (fun _ => ev))
      match Event.pin_to_tag ev sc1.model tag with
      | .error err => Except.error err
      | .ok q => Except.ok (Schedule.mk q.2 (updateEvent sc1.events tag.name (fun _ => q.1)))

/-- Merge every tag of one pre-existing timespan, in iteration order. -/
def Schedule.mergeTagList (sc : Schedule) : List Tag → Except PyErr Schedule
  | [] => Except.ok sc
  | t :: rest =>
    match Schedule.mergeTag sc t with
    | .error err => Except.error err
    | .ok sc1 => Schedule.mergeTagList sc1 rest

/-- Merge every pre-existing timespan, in iteration order. -/
def Schedule.mergeTimespans (sc : Schedule) : List (List Tag) → Except PyErr Schedule
  | [] => Except.ok sc
  | ts :: rest =>
    match Schedule.mergeTagList sc ts with
    | .error err => Except.error err
    | .ok sc1 => Schedule.mergeTimespans sc1 rest

/-- hermes.schedule.Schedule.constrain (src/hermes/schedule.py lines
296-305): apply `no_pick_first` (when the event is named in the map), then
choose_window over the schedule's windows, not_within, by, between, after.
Only the model changes; the event registry does not. -/
def Schedule.constrainModel (allEvents : List Event) (m : ConstraintModel) (ev : Event)
    (span : Span) (npf : Option Int) : ConstraintModel :=
  let m1 := match npf with
    | some t => Event.no_pick_first ev m t allEvents
    | none => m
  let m2 := Event.choose_window ev m1 (Schedule.event_windows span)
  let m3 := Event.not_within ev m2
  let m4 := Event.by_rule ev m3 span
  let m5 := Event.between_rule ev m4 span
  Event.after ev m5

/-- The populate loop `for event in self.events.values(): self.constrain(...)`
(src/hermes/schedule.py lines 266-267), over every event, pinned ones
included. -/
def Schedule.constrainAll (allEvents : List Event) (span : Span)
    (npf : List (String × Int)) : List Event → ConstraintModel → ConstraintModel
  | [], m => m
  | ev :: rest, m =>
    Schedule.constrainAll allEvents span npf rest
      (Schedule.constrainModel allEvents m ev span (npf.lookup ev.name))

/-- ConstraintModel.add_no_overlap (src/hermes/schedule.py lines 397-398):
AddNoOverlap over `event.interval for event in events`. -/
def ConstraintModel.add_no_overlap (m : ConstraintModel) (events : List Event) :
    ConstraintModel :=
  { m with constraints := m.constraints ++ [Constraint.noOverlap (events.map Event.interval)] }

/-- Loop of ConstraintModel._tabulate (src/hermes/schedule.py lines
416-423): per event, a fresh score variable equal to the event's score when
present and to 0 otherwise (via the negated presence literal). -/
def ConstraintModel.tabulate : List Event → ConstraintModel → List VarId × ConstraintModel
  | [], m => ([], m)
  | ev :: rest, m =>
    let score := m.make_var ("ConstraintModel_" ++ ev.name ++ "_final_score") false 0 MAKE_VAR_UB
    let m2 := score.2.add (LinExpr.var score.1) CmpOp.eq (LinExpr.var (Event.score ev))
      (some (Sentinel.mk ev.is_present true))
    let m3 := m2.add (LinExpr.var score.1) CmpOp.eq (LinExpr.const 0)
      (some (Sentinel.mk ev.is_present false))
    let res := ConstraintModel.tabulate rest m3
    (score.1 :: res.1, res.2)

/-- ConstraintModel.maximize (src/hermes/schedule.py lines 428-429):
Maximize(sum(self._tabulate(events))). -/
def ConstraintModel.maximize (m : ConstraintModel) (events : List Event) : ConstraintModel :=
  let res := ConstraintModel.tabulate events m
  { res.2 with objective := some (res.1, true) }

/-- Status reported by the external CP-SAT solver. -/
inductive SolveStatus where
  | optimal | feasible | infeasible | model_invalid | unknown
deriving DecidableEq, Repr

/-- Message of the error ConstraintModel.solve raises on a non-feasible
status (the f-string's status name is not reproduced). -/
def nonFeasibleMsg : String := "Non-feasible scheduling problem status"

/-- hermes.schedule.ConstraintModel.solve (src/hermes/schedule.py lines
400-414): the actual search is delegated to or-tools; the embedding takes
the solver-reported status and raises `ValueError` unless it is FEASIBLE or
OPTIMAL. The returned assignment is supplied separately as an oracle. -/
def ConstraintModel.solve (status : SolveStatus) : Except PyErr Unit :=
  if status = SolveStatus.feasible ∨ status = SolveStatus.optimal then Except.ok ()
  else Except.error (PyErr.valueError nonFeasibleMsg)

/-- hermes.schedule.Schedule.make_timespan (src/hermes/schedule.py lines
278-294): one tag per event that is not `_dont_schedule` and whose presence
resolved to 1, with the solved start/stop times. -/
def Schedule.make_timespan (s : Schedule) (sol : VarId → Int) : List Tag :=
  (s.events.filter (fun e => !e.dont_schedule && decide (sol e.is_present = 1))).map
    (fun e => Tag.mk e.name (some (sol e.start_time)) (some (sol e.stop_time)))

/-- Message of the vacuous-guard error at the top of populate. -/
def npfGuardMsg : String :=
  "In order to not pick something first there must be other things to pick."

/-- Model-building part of hermes.schedule.Schedule.populate
(src/hermes/schedule.py lines 233-273): the no_pick_first guard, the
pre-existing merge, the per-event constrain loop, the no-overlap constraint
over all events, and the objective. -/
def Schedule.populateBuild (s : Schedule) (span : Span) (pre : List (List Tag))
    (npf : List (String × Int)) : Except PyErr Schedule :=
  if s.events.all (fun e => (npf.lookup e.name).isSome) then
    Except.error (PyErr.valueError npfGuardMsg)
  else
    match Schedule.mergeTimespans s pre with
    | .error err => Except.error err
    | .ok s1 =>
      let m1 := Schedule.constrainAll s1.events span npf s1.events s1.model
      let m2 := ConstraintModel.add_no_overlap m1 s1.events
      let m3 := ConstraintModel.maximize m2 s1.events
      Except.ok (Schedule.mk m3 s1.events)

/-- hermes.schedule.Schedule.populate (src/hermes/schedule.py lines
233-276): build the model, solve (raising on a non-feasible status) and
convert the solver assignment back into tags. -/
def Schedule.populate (s : Schedule) (span : Span) (pre : List (List Tag))
    (npf : List (String × Int)) (status : SolveStatus) (sol : VarId → Int) :
    Except PyErr (List Tag) :=
  match Schedule.populateBuild s span pre npf with
  | .error err => Except.error err
  | .ok s1 =>
    match ConstraintModel.solve status with
    | .error err => Except.error err
    | .ok _ => Except.ok (Schedule.make_timespan s1 sol)

/- Frequency / Chore (src/hermes/stochastics.py and src/hermes/chores.py). -/

/-- cp_model scalar cap used by Frequency.tension_solver. -/
def SCALAR_MAX : Int := 3

/-- hermes.stochastics.Frequency (mean, tolerance, minimum gap; seconds).
The continuous scipy-based `tension` CDF is not needed by the claims. -/
structure Frequency where
  mean : Int
  tolerance : Int
  minGap : Int
deriving DecidableEq, Repr

/-- hermes.stochastics.Frequency.tension_solver (src/hermes/stochastics.py
lines 48-72): constrain a fresh `scalar` variable (bounded by SCALAR_MAX
above) so that |elapsed - mean| = (SCALAR_MAX - scalar) * tolerance +
remainder with 0 <= remainder < tolerance, and return it. -/
def Frequency.tension_solver (fr : Frequency) (elapsed : VarId) (m : ConstraintModel) :
    VarId × ConstraintModel :=
  let mean := fr.mean
  let tolerance := fr.tolerance
  let diff := m.make_var "tension_diff" false 0 MAKE_VAR_UB
  let m2 := diff.2.add (LinExpr.var diff.1) CmpOp.eq
    (LinExpr.sub (LinExpr.var elapsed) (LinExpr.const mean)) none
  let abs_diff := m2.make_var "tension_diff_abs" false 0 MAKE_VAR_UB
  let m4 := abs_diff.2.add_abs abs_diff.1 (LinExpr.var diff.1) none
  let scalar := m4.make_var "tension_scalar" false INT32_MIN SCALAR_MAX
  let remainder := scalar.2.make_var "tension_remainder" false 0 MAKE_VAR_UB
  let m7 := remainder.2.add (LinExpr.var abs_diff.1) CmpOp.eq
    (LinExpr.add (LinExpr.mulConst (LinExpr.sub (LinExpr.const SCALAR_MAX)
      (LinExpr.var scalar.1)) tolerance) (LinExpr.var remainder.1)) none
  let m8 := m7.add (LinExpr.var remainder.1) CmpOp.lt (LinExpr.const tolerance) none
  (scalar.1, m8)

/-- hermes.chores.Chore (src/hermes/chores.py lines 27-39); duration in
seconds. -/
structure Chore where
  name : String
  frequency : Frequency
  duration : Int
deriving DecidableEq, Repr

/-- hermes.chores.Chore.tension_solver (src/hermes/chores.py lines 44-50):
create a `reward` variable constrained to `scalar * duration` for the scalar
of a first Frequency.tension_solver invocation, then RETURN the scalar of a
second, fresh Frequency.tension_solver invocation — the duration-weighted
`reward` variable is never returned. -/
def Chore.tension_solver (ch : Chore) (elapsed : VarId) (m : ConstraintModel) :
    VarId × ConstraintModel :=
  let reward := m.make_var "tension reward" false INT32_MIN MAKE_VAR_UB
  let scalar := ch.frequency.tension_solver elapsed reward.2
  let m3 := scalar.2.add (LinExpr.var reward.1) CmpOp.eq
    (LinExpr.mulConst (LinExpr.var scalar.1) ch.duration) none
  ch.frequency.tension_solver elapsed m3

/- Helper definitions for the theorems below. -/

/-- Whether a constraint is a mutual-exclusion (AddNoOverlap) constraint. -/
def Constraint.isNoOverlap : Constraint → Bool
  | .noOverlap _ => true
  | _ => false

/-- The mutual-exclusion constraints of a model, in order. -/
def noOverlapsOf (m : ConstraintModel) : List Constraint :=
  m.constraints.filter Constraint.isNoOverlap

/-- Specification of the constraint list emitted by `Event.byDays`: for the
day list, one reified `stop < day-deadline` constraint per day, gated by
consecutive fresh indicator variables starting at `v`. -/
def byConsList (stopv : VarId) (tB : Int) : VarId → List Int → List Constraint
  | _, [] => []
  | v, day :: rest =>
    Constraint.lin (LinExpr.var stopv) CmpOp.lt (LinExpr.const (day * 86400 + tB))
      (some (Sentinel.mk v true)) :: byConsList stopv tB (v + 1) rest

/- Concrete scenarios used by the counterexamples and witnesses. -/

/-- A schedule declaring one optional 30-minute event "a". -/
def c1base : Schedule :=
  match Schedule.new.add_event "a" none true none none none with
  | .ok p => p.2
  | .error _ => Schedule.new

/-- A one-day bounding span. -/
def c1span : Span := Span.mk (some 0) (some 86400)

/-- A pre-existing tag with a name ("x") matching no declared event. -/
def c1tag : Tag := Tag.mk "x" (some 1000) (some 1060)

/-- The model built by populate for `c1base` with the pre-existing tag
`c1tag`: "x" becomes a pinned, excluded event. -/
def c1out : Schedule :=
  match Schedule.populateBuild c1base c1span [[c1tag]] [] with
  | .ok s => s
  | .error _ => Schedule.new

/-- A schedule declaring one mandatory 60-second event "e". -/
def c4base : Schedule :=
  match Schedule.new.add_event "e" (some 60) false none none none with
  | .ok p => p.2
  | .error _ => Schedule.new

/-- A tag produced by a previous populate run of `c4base` (event "e" solved
at 1000..1060), fed back as a pre-existing event. -/
def c4tag : Tag := Tag.mk "e" (some 1000) (some 1060)

/-- The model built by populate for `c4base` when `c4tag` is fed back: the
declared event "e" is pinned but stays schedulable. -/
def c4out : Schedule :=
  match Schedule.populateBuild c4base c1span [[c4tag]] [] with
  | .ok s => s
  | .error _ => Schedule.new

/-- A satisfying assignment for `c4out`: "e" present at its pinned times
(variable ids: 0 start, 1 stop, 2 presence, 3 window indicator, 4 score). -/
def c4sol : VarId → Int := fun v =>
  if v = 0 then 1000 else if v = 1 then 1060 else if v = 2 then 1 else
  if v = 3 then 1 else if v = 4 then 1 else 0

/-- A schedule declaring one optional 60-second event "e" with a
`by(10:00)` rule (36000 seconds after midnight). -/
def c5base : Schedule :=
  match Schedule.new.add_event "e" (some 60) true none none (some 36000) with
  | .ok p => p.2
  | .error _ => Schedule.new

/-- A two-day bounding span (days 0 and 1). -/
def c5span : Span := Span.mk (some 0) (some 172800)

/-- The model built by populate for `c5base`: day indicators are variable 4
(day 0, deadline 36000) and variable 5 (day 1, deadline 122400). -/
def c5out : Schedule :=
  match Schedule.populateBuild c5base c5span [] [] with
  | .ok s => s
  | .error _ => Schedule.new

/-- A satisfying assignment for `c5out`: the event is present and stops at
100 (before BOTH deadlines), yet day 0's indicator is 0 and day 1's is 1
(variable ids: 0 start, 1 stop, 2 presence, 3 window, 4 day 0, 5 day 1,
6 score). -/
def c5sol : VarId → Int := fun v =>
  if v = 0 then 40 else if v = 1 then 100 else if v = 2 then 1 else
  if v = 3 then 1 else if v = 4 then 0 else if v = 5 then 1 else
  if v = 6 then 1 else 0

/-- A frequency with mean 10 seconds and tolerance 5 seconds. -/
def c10fr : Frequency := Frequency.mk 10 5 0

/-- A chore with duration 7 seconds over `c10fr`. -/
def c10ch : Chore := Chore.mk "dishes" c10fr 7

/-- A satisfying assignment for `Frequency.tension_solver c10fr 99` from the
empty model with elapsed (variable 99) equal to 22: diff 12, abs 12,
scalar 1, remainder 2. -/
def c10solF : VarId → Int := fun v =>
  if v = 99 then 22 else if v = 0 then 12 else if v = 1 then 12 else
  if v = 2 then 1 else if v = 3 then 2 else 0

/-- A satisfying assignment for `Chore.tension_solver c10ch 99` from the
empty model with elapsed (variable 99) equal to 22 (variable 0 is the
discarded duration-weighted reward). -/
def c10solC : VarId → Int := fun v =>
  if v = 99 then 22 else if v = 0 then 7 else if v = 1 then 12 else if v = 2 then 12 else
  if v = 3 then 1 else if v = 4 then 2 else if v = 5 then 12 else if v = 6 then 12 else
  if v = 7 then 1 else if v = 8 then 2 else 0


/-- An event shaped like the c5 scenario's "e" but with variable ids 10-12,
used to exercise `Event.by` against the empty model (day indicators then get
ids 0 and 1). -/
def c5demoEvent : Event :=
  Event.mk "e" 10 11 12 (IntervalDecl.mk 10 60 11 12) false false [] (some 36000) none []

/-- A satisfying assignment for `Event.by` of `c5demoEvent` over `c5span`
from the empty model: stop 100, present, day-0 indicator 0, day-1
indicator 1. -/
def c5demoSol : VarId → Int := fun v =>
  if v = 10 then 40 else if v = 11 then 100 else if v = 12 then 1 else
  if v = 0 then 0 else if v = 1 then 1 else 0

/- Theorems. Each claim of CLAIMS.json has exactly one theorem below, plus a
   witness or counterexample where required. -/

/-- C6 (code_bug): the source overlap predicate returns TRUE for two spans
that merely touch at an endpoint (the first finishes at 7200, exactly where
the second starts), while the claim — and the repository's own
test_span_contiguous in src/tests/test_spans.py, which asserts
`span_e not in span_f` for exactly this shape — says such spans do not
overlap. -/
theorem c6_touching_spans_overlap_in_code :
    Spannable.contains (Span.mk (some 3600) (some 7200)) (Span.mk (some 7200) (some 10800)) = true ∧
    Spannable.contains (Span.mk (some 7200) (some 10800)) (Span.mk (some 3600) (some 7200)) = true ∧
    overlapsClaimC6 (Span.mk (some 3600) (some 7200)) (Span.mk (some 7200) (some 10800)) = false := by
  decide

/-- C9 (code_bug): `BaseTag.span` substitutes `datetime.max` — not
`datetime.min` — for a missing `valid_from`, so a Tag with valid_from=None
and valid_to=100 gets the reversed span [datetime.max, 100] and does NOT
overlap a span beginning before its valid_to, contradicting the claim that
a missing bound is unbounded toward the past. -/
theorem c9_missing_valid_from_is_datetime_max :
    Tag.span (Tag.mk "t" none (some 100)) = Span.mk (some datetimeMax) (some 100) ∧
    Spannable.contains (Tag.span (Tag.mk "t" none (some 100))) (Span.mk (some 0) (some 50)) = false := by
  decide

/-- C3 (code_bug): populate on a Schedule with zero declared events, no
pre-existing timespans and no no_pick_first entries raises
`ValueError("In order to not pick something first ...")` instead of
returning an empty Tag collection, because `all(...)` over the empty event
set is vacuously true. -/
theorem c3_populate_empty_schedule_raises :
    Schedule.new.events = [] ∧
    Schedule.populate Schedule.new c1span [] [] SolveStatus.optimal (fun _ => 0) =
      Except.error (PyErr.valueError npfGuardMsg) := by
  constructor
  · rfl
  · rfl

/-- C2 counterexample: an infeasible solve makes populate raise
`ValueError` — the very same generic exception class that configuration
errors such as a duplicate event name raise — not a distinct, named
domain-level infeasibility outcome (the source comment even reads
"TODO - custom error reporting"). -/
theorem c2_infeasible_is_generic_valueerror_cex :
    Schedule.populate c4base c1span [[c4tag]] [] SolveStatus.infeasible (fun _ => 0) =
      Except.error (PyErr.valueError nonFeasibleMsg) ∧
    c1base.add_event "a" none true none none none =
      Except.error (PyErr.valueError "Already have a defined event called a") ∧
    PyErr.isValueError (PyErr.valueError nonFeasibleMsg) = true :=
  And.intro rfl (And.intro rfl rfl)

/-- C2 (corrected): whenever the solver status is neither FEASIBLE nor
OPTIMAL, populate fails by raising the generic
`ValueError("Non-feasible scheduling problem status...")` (the same
exception class configuration errors use), and — the failure being an
exception — no Tags whatsoever are produced. -/
theorem c2_infeasible_raises_valueerror_no_tags (s out : Schedule) (span : Span)
    (pre : List (List Tag)) (npf : List (String × Int)) (status : SolveStatus)
    (sol : VarId → Int) (h1 : status ≠ SolveStatus.feasible)
    (h2 : status ≠ SolveStatus.optimal)
    (hb : Schedule.populateBuild s span pre npf = Except.ok out) :
    Schedule.populate s span pre npf status sol =
      Except.error (PyErr.valueError nonFeasibleMsg) := by
  unfold Schedule.populate
  rw [hb]
  unfold ConstraintModel.solve
  rw [if_neg]
  rintro (h | h)
  · exact h1 h
  · exact h2 h

/-- C2 witness: the amended statement applied to the concrete round-trip
scenario with an UNKNOWN solver status. -/
theorem c2_infeasible_raises_valueerror_no_tags_witness :
    Schedule.populate c4base c1span [[c4tag]] [] SolveStatus.unknown c4sol =
      Except.error (PyErr.valueError nonFeasibleMsg) :=
  c2_infeasible_raises_valueerror_no_tags c4base c4out c1span [[c4tag]] []
    SolveStatus.unknown c4sol (by decide) (by decide) rfl

/-- A name whose head is first-class and whose tail is rest-class cannot end
in a newline. -/
theorem getLast_not_newline (c : Char) (body : List Char)
    (hc : identCharFirst c = true) (hb : ∀ x ∈ body, identCharRest x = true) :
    (c :: body).getLast? ≠ some '\n' := by
  intro h
  have hne : (c :: body) ≠ [] := by simp
  rw [List.getLast?_eq_getLast_of_ne_nil hne] at h
  have hmem : (c :: body).getLast hne ∈ c :: body := List.getLast_mem hne
  have hval : (c :: body).getLast hne = '\n' := by
    exact Option.some.inj h
  rw [hval] at hmem
  rcases List.mem_cons.mp hmem with h1 | h2
  · rw [← h1] at hc
    exact absurd hc (by decide)
  · have := hb _ h2
    exact absurd this (by decide)

/-- The executable check decides the regex semantics of the category name
pattern. -/
theorem categoryCheckImpl_iff (l : List Char) :
    categoryCheckImpl l = true ↔ categoryPatternMatch l := by
  constructor
  · intro h
    unfold categoryCheckImpl at h
    by_cases hl : l.getLast? = some '\n'
    · simp only [hl, if_pos] at h
      have hdec : l.dropLast ++ ['\n'] = l := List.dropLast_append_getLast? _ hl
      match hcore : l.dropLast with
      | [] =>
        rw [hcore] at h
        simp at h
      | c :: rest =>
        rw [hcore] at h
        have h2 : (identCharFirst c && rest.all identCharRest) = true := h
        rw [Bool.and_eq_true] at h2
        refine ⟨c, rest, ['\n'], ?_, h2.1, List.all_eq_true.mp h2.2, Or.inr rfl⟩
        rw [← hdec, hcore]
        simp
    · simp only [if_neg hl] at h
      match l, h with
      | c :: rest, h =>
        have h2 : (identCharFirst c && rest.all identCharRest) = true := h
        rw [Bool.and_eq_true] at h2
        exact ⟨c, rest, [], by simp, h2.1, List.all_eq_true.mp h2.2, Or.inl rfl⟩
  · rintro ⟨c, body, tail, hdecomp, hc, hbody, htail⟩
    unfold categoryCheckImpl
    rcases htail with ht | ht
    · subst ht
      rw [List.append_nil] at hdecomp
      subst hdecomp
      rw [if_neg (getLast_not_newline c body hc hbody)]
      have : body.all identCharRest = true := List.all_eq_true.mpr hbody
      simp [hc, this]
    · subst ht
      have hconc : l = (c :: body) ++ ['\n'] := by rw [hdecomp]; simp
      subst hconc
      rw [if_pos (by rw [List.getLast?_concat])]
      rw [List.dropLast_concat]
      have : body.all identCharRest = true := List.all_eq_true.mpr hbody
      simp [hc, this]

/-- C7 counterexample: the name "a_b" lies inside the claim's character set
`[A-Za-z0-9:_- ]` (it is nonempty, begins with a letter, and contains only
letters and an underscore), yet Category construction fails on it — the
source pattern `[a-zA-Z][a-zA-Z0-9:\- ]*$` does not admit underscores. -/
theorem c7_underscore_rejected_cex :
    exceptOk (Category.make "a_b" none) = false ∧
    c7ClaimedValid "a_b".toList = true := by
  decide

/-- C7 (corrected): Category construction succeeds exactly when, after
discarding at most one trailing newline (tolerated by the pattern's `$`),
the name is nonempty, begins with an ASCII letter, and has every remaining
character in `[A-Za-z0-9:- ]` — underscore excluded; the validation runs in
the constructor, so failures happen at construction time, never at later
use. The second conjunct ties the executable check used by the constructor
to the regex semantics of the source pattern. -/
theorem c7_category_name_validation :
    (∀ s : String, exceptOk (Category.make s none) = true ↔ c7AmendedValid s.toList = true) ∧
    (∀ l : List Char, categoryCheckImpl l = true ↔ categoryPatternMatch l) := by
  constructor
  · intro s
    unfold Category.make Category.check_name c7AmendedValid categoryCheckImpl
    cases h : categoryCheckImpl s.toList
    · unfold categoryCheckImpl at h
      rw [h]
      simp [exceptOk]
    · unfold categoryCheckImpl at h
      rw [h]
      simp [exceptOk]
  · exact categoryCheckImpl_iff

/-- Adding a linear constraint adds no mutual-exclusion constraint. -/
theorem noOverlapsOf_add (m : ConstraintModel) (lhs : LinExpr) (rel : CmpOp)
    (rhs : LinExpr) (st : Option Sentinel) :
    noOverlapsOf (m.add lhs rel rhs st) = noOverlapsOf m := by
  simp [ConstraintModel.add, noOverlapsOf, List.filter_append, Constraint.isNoOverlap]

/-- Adding an absolute-value constraint adds no mutual-exclusion constraint. -/
theorem noOverlapsOf_add_abs (m : ConstraintModel) (t : VarId) (e : LinExpr)
    (st : Option Sentinel) :
    noOverlapsOf (m.add_abs t e st) = noOverlapsOf m := by
  simp [ConstraintModel.add_abs, noOverlapsOf, List.filter_append, Constraint.isNoOverlap]

/-- Creating a variable adds no constraint at all. -/
theorem noOverlapsOf_make_var (m : ConstraintModel) (n : String) (b : Bool) (lb ub : Int) :
    noOverlapsOf (m.make_var n b lb ub).2 = noOverlapsOf m := rfl

/-- Creating an interval adds no constraint at all. -/
theorem noOverlapsOf_make_interval (m : ConstraintModel) (st : VarId) (d : Int)
    (sp ip : VarId) :
    noOverlapsOf (m.make_interval st d sp ip).2 = noOverlapsOf m := rfl

/-- A min-equality helper adds no mutual-exclusion constraint. -/
theorem noOverlapsOf_min_equality (m : ConstraintModel) (a b : VarId) :
    noOverlapsOf (m.min_equality a b).2 = noOverlapsOf m := by
  simp [ConstraintModel.min_equality, ConstraintModel.make_var, noOverlapsOf,
    List.filter_append, Constraint.isNoOverlap]

/-- A max-equality helper adds no mutual-exclusion constraint. -/
theorem noOverlapsOf_max_equality (m : ConstraintModel) (a b : VarId) :
    noOverlapsOf (m.max_equality a b).2 = noOverlapsOf m := by
  simp [ConstraintModel.max_equality, ConstraintModel.make_var, noOverlapsOf,
    List.filter_append, Constraint.isNoOverlap]

/-- Folding a mutual-exclusion-preserving step preserves the
mutual-exclusion constraints. -/
theorem noOverlapsOf_foldl {α : Type} (f : ConstraintModel → α → ConstraintModel)
    (hf : ∀ m a, noOverlapsOf (f m a) = noOverlapsOf m) :
    ∀ (l : List α) (m : ConstraintModel), noOverlapsOf (l.foldl f m) = noOverlapsOf m
  | [], _ => rfl
  | a :: rest, m => by
    rw [List.foldl_cons, noOverlapsOf_foldl f hf rest (f m a), hf]

/-- Event.not_within adds no mutual-exclusion constraint. -/
theorem noOverlapsOf_not_within (e : Event) (m : ConstraintModel) :
    noOverlapsOf (Event.not_within e m) = noOverlapsOf m := by
  unfold Event.not_within
  apply noOverlapsOf_foldl
  intro m' p
  rw [noOverlapsOf_add, noOverlapsOf_max_equality, noOverlapsOf_min_equality]

/-- Event.after adds no mutual-exclusion constraint. -/
theorem noOverlapsOf_after (e : Event) (m : ConstraintModel) :
    noOverlapsOf (Event.after e m) = noOverlapsOf m := by
  unfold Event.after
  apply noOverlapsOf_foldl
  intro m' v
  rw [noOverlapsOf_add]

/-- The by-rule day loop adds no mutual-exclusion constraint. -/
theorem noOverlapsOf_byDays (e : Event) (tB : Int) :
    ∀ (i : Nat) (ds : List Int) (m : ConstraintModel),
      noOverlapsOf (Event.byDays e tB i ds m).2 = noOverlapsOf m
  | _, [], _ => rfl
  | i, day :: rest, m => by
    unfold Event.byDays
    rw [noOverlapsOf_byDays e tB (i + 1) rest, noOverlapsOf_add, noOverlapsOf_make_var]

/-- Event.by adds no mutual-exclusion constraint. -/
theorem noOverlapsOf_by_rule (e : Event) (m : ConstraintModel) (span : Span) :
    noOverlapsOf (Event.by_rule e m span) = noOverlapsOf m := by
  unfold Event.by_rule
  cases e.byT
  · rfl
  · dsimp only
    split
    · rw [noOverlapsOf_byDays]
    · rw [noOverlapsOf_add, noOverlapsOf_byDays]

/-- The between-rule day loop adds no mutual-exclusion constraint. -/
theorem noOverlapsOf_betweenDays (e : Event) (t1 t2 : Int) :
    ∀ (i : Nat) (ds : List Int) (m : ConstraintModel),
      noOverlapsOf (Event.betweenDays e t1 t2 i ds m).2 = noOverlapsOf m
  | _, [], _ => rfl
  | i, day :: rest, m => by
    unfold Event.betweenDays
    rw [noOverlapsOf_betweenDays e t1 t2 (i + 1) rest, noOverlapsOf_add, noOverlapsOf_add,
      noOverlapsOf_make_var]

/-- Event.between adds no mutual-exclusion constraint. -/
theorem noOverlapsOf_between_rule (e : Event) (m : ConstraintModel) (span : Span) :
    noOverlapsOf (Event.between_rule e m span) = noOverlapsOf m := by
  unfold Event.between_rule
  cases e.betweenT
  · rfl
  · dsimp only
    split
    · rw [noOverlapsOf_betweenDays]
    · rw [noOverlapsOf_add, noOverlapsOf_betweenDays]

/-- The window loop adds no mutual-exclusion constraint. -/
theorem noOverlapsOf_chooseWindowAux (e : Event) :
    ∀ (i : Nat) (ws : List Span) (m : ConstraintModel),
      noOverlapsOf (Event.chooseWindowAux e i ws m).2 = noOverlapsOf m
  | _, [], _ => rfl
  | i, w :: rest, m => by
    unfold Event.chooseWindowAux
    rw [noOverlapsOf_chooseWindowAux e (i + 1) rest, noOverlapsOf_add, noOverlapsOf_add,
      noOverlapsOf_make_var]

/-- Event.choose_window adds no mutual-exclusion constraint. -/
theorem noOverlapsOf_choose_window (e : Event) (m : ConstraintModel) (ws : List Span) :
    noOverlapsOf (Event.choose_window e m ws) = noOverlapsOf m := by
  unfold Event.choose_window
  dsimp only
  split
  · rw [noOverlapsOf_chooseWindowAux]
  · rw [noOverlapsOf_add, noOverlapsOf_chooseWindowAux]

/-- The no-pick-first loop adds no mutual-exclusion constraint. -/
theorem noOverlapsOf_noPickFirstAux (e : Event) (pa : Int) :
    ∀ (evs : List Event) (m : ConstraintModel),
      noOverlapsOf (Event.noPickFirstAux e pa evs m).2 = noOverlapsOf m
  | [], _ => rfl
  | ev :: rest, m => by
    unfold Event.noPickFirstAux
    split
    · rw [noOverlapsOf_noPickFirstAux e pa rest]
    · dsimp only
      rw [noOverlapsOf_noPickFirstAux e pa rest, noOverlapsOf_add, noOverlapsOf_add,
        noOverlapsOf_make_var]

/-- Event.no_pick_first adds no mutual-exclusion constraint. -/
theorem noOverlapsOf_no_pick_first (e : Event) (m : ConstraintModel) (pa : Int)
    (evs : List Event) :
    noOverlapsOf (Event.no_pick_first e m pa evs) = noOverlapsOf m := by
  unfold Event.no_pick_first
  dsimp only
  split
  · rw [noOverlapsOf_noPickFirstAux]
  · rw [noOverlapsOf_add, noOverlapsOf_noPickFirstAux]

/-- The per-event constrain step adds no mutual-exclusion constraint. -/
theorem noOverlapsOf_constrainModel (allEvents : List Event) (m : ConstraintModel)
    (ev : Event) (span : Span) (npf : Option Int) :
    noOverlapsOf (Schedule.constrainModel allEvents m ev span npf) = noOverlapsOf m := by
  unfold Schedule.constrainModel
  rw [noOverlapsOf_after, noOverlapsOf_between_rule, noOverlapsOf_by_rule,
    noOverlapsOf_not_within, noOverlapsOf_choose_window]
  cases npf
  · rfl
  · rw [noOverlapsOf_no_pick_first]

/-- The constrain loop over all events adds no mutual-exclusion constraint. -/
theorem noOverlapsOf_constrainAll (allEvents : List Event) (span : Span)
    (npf : List (String × Int)) :
    ∀ (evs : List Event) (m : ConstraintModel),
      noOverlapsOf (Schedule.constrainAll allEvents span npf evs m) = noOverlapsOf m
  | [], _ => rfl
  | ev :: rest, m => by
    unfold Schedule.constrainAll
    rw [noOverlapsOf_constrainAll allEvents span npf rest, noOverlapsOf_constrainModel]

/-- The score tabulation adds no mutual-exclusion constraint. -/
theorem noOverlapsOf_tabulate :
    ∀ (evs : List Event) (m : ConstraintModel),
      noOverlapsOf (ConstraintModel.tabulate evs m).2 = noOverlapsOf m
  | [], _ => rfl
  | ev :: rest, m => by
    unfold ConstraintModel.tabulate
    rw [noOverlapsOf_tabulate rest, noOverlapsOf_add, noOverlapsOf_add, noOverlapsOf_make_var]

/-- Setting the objective adds no mutual-exclusion constraint. -/
theorem noOverlapsOf_maximize (m : ConstraintModel) (evs : List Event) :
    noOverlapsOf (ConstraintModel.maximize m evs) = noOverlapsOf m := by
  unfold ConstraintModel.maximize
  have h := noOverlapsOf_tabulate evs m
  simpa [noOverlapsOf] using h

/-- add_no_overlap appends exactly one mutual-exclusion constraint, over the
intervals of every event it is given. -/
theorem noOverlapsOf_add_no_overlap (m : ConstraintModel) (evs : List Event) :
    noOverlapsOf (ConstraintModel.add_no_overlap m evs) =
      noOverlapsOf m ++ [Constraint.noOverlap (evs.map Event.interval)] := by
  simp [ConstraintModel.add_no_overlap, noOverlapsOf, List.filter_append, Constraint.isNoOverlap]

/-- Pinning an event to a tag adds no mutual-exclusion constraint. -/
theorem noOverlapsOf_pin_to_tag (e : Event) (m : ConstraintModel) (tag : Tag)
    (p : Event × ConstraintModel) (h : Event.pin_to_tag e m tag = Except.ok p) :
    noOverlapsOf p.2 = noOverlapsOf m := by
  unfold Event.pin_to_tag at h
  split at h
  · cases h
    rfl
  · split at h
    · exact absurd h (by simp)
    · cases h
      rw [noOverlapsOf_add]

/-- add_event adds no mutual-exclusion constraint. -/
theorem noOverlapsOf_add_event (s : Schedule) (name : String) (duration : Option Int)
    (optional : Bool) (between : Option (Int × Int)) (afterE : Option Event)
    (byT : Option Int) (p : Event × Schedule)
    (h : Schedule.add_event s name duration optional between afterE byT = Except.ok p) :
    noOverlapsOf p.2.model = noOverlapsOf s.model := by
  unfold Schedule.add_event at h
  split at h
  · exact absurd h (by simp)
  · dsimp only at h
    split at h
    · exact absurd h (by simp)
    · split at h
      · split at h
        · cases h
          dsimp only
          rw [noOverlapsOf_make_interval]
          split
          · rfl
          · rw [noOverlapsOf_add, noOverlapsOf_make_var, noOverlapsOf_make_var,
              noOverlapsOf_make_var]
        · exact absurd h (by simp)
      · cases h
        dsimp only
        rw [noOverlapsOf_make_interval]
        split
        · rfl
        · rw [noOverlapsOf_add, noOverlapsOf_make_var, noOverlapsOf_make_var,
            noOverlapsOf_make_var]

/-- Merging one pre-existing tag adds no mutual-exclusion constraint. -/
theorem noOverlapsOf_mergeTag (sc : Schedule) (tag : Tag) (out : Schedule)
    (h : Schedule.mergeTag sc tag = Except.ok out) :
    noOverlapsOf out.model = noOverlapsOf sc.model := by
  unfold Schedule.mergeTag at h
  split at h
  · rename_i e _
    split at h
    · exact absurd h (by simp)
    · rename_i p hpin
      cases h
      exact noOverlapsOf_pin_to_tag e sc.model tag p hpin
  · split at h
    · exact absurd h (by simp)
    · rename_i p hadd
      dsimp only at h
      split at h
      · exact absurd h (by simp)
      · rename_i q hpin
        cases h
        have h1 := noOverlapsOf_add_event sc tag.name (some tag.span.durationInt)
          false none none none p hadd
        have h2 := noOverlapsOf_pin_to_tag _ p.2.model tag q hpin
        dsimp only
        rw [h2, h1]

/-- Merging a tag list adds no mutual-exclusion constraint. -/
theorem noOverlapsOf_mergeTagList : ∀ (ts : List Tag) (sc out : Schedule),
    Schedule.mergeTagList sc ts = Except.ok out →
    noOverlapsOf out.model = noOverlapsOf sc.model
  | [], sc, out, h => by
    cases h
    rfl
  | t :: rest, sc, out, h => by
    unfold Schedule.mergeTagList at h
    split at h
    · exact absurd h (by simp)
    · rename_i sc1 hmt
      rw [noOverlapsOf_mergeTagList rest sc1 out h, noOverlapsOf_mergeTag sc t sc1 hmt]

/-- Merging all pre-existing timespans adds no mutual-exclusion constraint. -/
theorem noOverlapsOf_mergeTimespans : ∀ (tss : List (List Tag)) (sc out : Schedule),
    Schedule.mergeTimespans sc tss = Except.ok out →
    noOverlapsOf out.model = noOverlapsOf sc.model
  | [], sc, out, h => by
    cases h
    rfl
  | ts :: rest, sc, out, h => by
    unfold Schedule.mergeTimespans at h
    split at h
    · exact absurd h (by simp)
    · rename_i sc1 hmt
      rw [noOverlapsOf_mergeTimespans rest sc1 out h, noOverlapsOf_mergeTagList ts sc sc1 hmt]

/-- C1 (corrected): the mutual-exclusion (no-overlap) constraint that
populate adds ranges over the intervals of ALL events — pinned events
derived from pre-existing Tags included — not only over the non-pinned
ones: any successful populate build whose input schedule carried no
mutual-exclusion constraint ends with exactly one, and its interval list is
the interval of every registered event. -/
theorem c1_no_overlap_covers_all_events (s out : Schedule) (span : Span)
    (pre : List (List Tag)) (npf : List (String × Int))
    (hno : noOverlapsOf s.model = [])
    (hb : Schedule.populateBuild s span pre npf = Except.ok out) :
    noOverlapsOf out.model = [Constraint.noOverlap (out.events.map Event.interval)] := by
  unfold Schedule.populateBuild at hb
  split at hb
  · exact absurd hb (by simp)
  · split at hb
    · exact absurd hb (by simp)
    · rename_i s1 hmt
      cases hb
      dsimp only
      rw [noOverlapsOf_maximize, noOverlapsOf_add_no_overlap, noOverlapsOf_constrainAll,
        noOverlapsOf_mergeTimespans pre s s1 hmt, hno, List.nil_append]

/-- C1 witness: in the concrete scenario (one declared event "a", one
pre-existing tag "x" merged as a pinned event) the single no-overlap
constraint covers both intervals. -/
theorem c1_no_overlap_covers_all_events_witness :
    noOverlapsOf c1out.model = [Constraint.noOverlap (c1out.events.map Event.interval)] :=
  c1_no_overlap_covers_all_events c1base c1out c1span [[c1tag]] [] rfl rfl

/-- C1 counterexample: in that same scenario the event "x" pinned from the
pre-existing tag sits INSIDE the no-overlap interval set (its interval is
`{start := 3, size := 60, stop := 4, presence := 5}`), so pinned events are
not excluded from mutual exclusion as the claim states. -/
theorem c1_pinned_event_in_no_overlap_cex :
    (c1out.events.map (fun e => (e.name, e.pinned))) = [("a", false), ("x", true)] ∧
    noOverlapsOf c1out.model =
      [Constraint.noOverlap [IntervalDecl.mk 0 1800 1 2, IntervalDecl.mk 3 60 4 5]] ∧
    (c1out.events.filter Event.pinned).map Event.interval = [IntervalDecl.mk 3 60 4 5] := by
  refine ⟨rfl, rfl, rfl⟩

/-- C4 counterexample: the tag "e" produced by a previous populate run of
the same schedule, fed back as a pre-existing event, does NOT exclude event
"e" from the next call's scheduled output: under a satisfying assignment the
output contains the tag for "e" (the exclusion flag `_dont_schedule` is set
only for tags whose names match no declared event). -/
theorem c4_fed_back_tag_not_excluded_cex :
    ConstraintModel.satisfied c4out.model c4sol = true ∧
    Schedule.make_timespan c4out c4sol = [c4tag] := by
  refine ⟨by decide, by decide⟩

/-- C4 (corrected): a Tag fed back into a subsequent populate whose name
matches a declared Event pins that event (its start is fixed to the Tag's
valid_from) but does NOT exclude it from the scheduled output: in the
concrete round-trip scenario every satisfying assignment yields exactly the
original tag back (time range preserved unchanged, presence forced). Only a
fed-back Tag matching no declared Event (here "x" in the c1 scenario) is
excluded from the output, under every assignment whatsoever. -/
theorem c4_roundtrip_pins_but_keeps_event (sol sol2 : VarId → Int)
    (hsat : ConstraintModel.satisfied c4out.model sol = true) :
    Schedule.make_timespan c4out sol = [c4tag] ∧
    ((Schedule.make_timespan c1out sol2).map Tag.name).contains "x" = false := by
  constructor
  · have h := hsat
    unfold ConstraintModel.satisfied at h
    simp only [Bool.and_eq_true] at h
    have hall := List.all_eq_true.mp h.2
    have hiv := List.all_eq_true.mp h.1.2
    have hc0 := hall _ (show Constraint.lin (LinExpr.var 2) CmpOp.eq (LinExpr.const 1) none
      ∈ c4out.model.constraints by decide)
    have hc1 := hall _ (show Constraint.lin (LinExpr.var 0) CmpOp.eq (LinExpr.const 1000)
      (some (Sentinel.mk 2 true)) ∈ c4out.model.constraints by decide)
    have hd := hiv _ (show IntervalDecl.mk 0 60 1 2 ∈ c4out.model.intervals by decide)
    simp only [Constraint.holds, sentinelActive, LinExpr.eval, CmpOp.holds,
      IntervalDecl.holds, if_true, if_false, Bool.not_true, Bool.false_or, Bool.or_eq_true,
      Bool.not_eq_true', decide_eq_true_eq, decide_eq_false_iff_not] at hc0 hc1 hd
    have hp : sol 2 = 1 := hc0
    have hstart : sol 0 = 1000 := by
      rcases hc1 with h1 | h1
      · exact absurd hp h1
      · exact h1
    have hstop : sol 1 = 1060 := by
      rcases hd with h1 | h1
      · exact absurd hp h1
      · rw [hstart] at h1
        omega
    have hev : c4out.events = [Event.mk "e" 0 1 2 (IntervalDecl.mk 0 60 1 2) false true
      [] none none []] := rfl
    unfold Schedule.make_timespan
    rw [hev]
    simp [List.filter_cons, hp, hstart, hstop, c4tag]
  · have hev : c1out.events = [Event.mk "a" 0 1 2 (IntervalDecl.mk 0 1800 1 2) false false
      [] none none [],
      Event.mk "x" 3 4 5 (IntervalDecl.mk 3 60 4 5) true true [] none none []] := rfl
    unfold Schedule.make_timespan
    rw [hev]
    by_cases hp : sol2 2 = 1
    · simp [List.filter_cons, hp]
    · simp [List.filter_cons, hp]

/-- C4 witness: the amended statement applied to the concrete satisfying
assignment `c4sol` and the zero assignment. -/
theorem c4_roundtrip_pins_but_keeps_event_witness :
    Schedule.make_timespan c4out c4sol = [c4tag] ∧
    ((Schedule.make_timespan c1out (fun _ => 0)).map Tag.name).contains "x" = false :=
  c4_roundtrip_pins_but_keeps_event c4sol (fun _ => 0) (by decide)

/-- Length of the by-rule constraint list. -/
theorem byConsList_length (stopv : VarId) (tB : Int) :
    ∀ (ds : List Int) (v : VarId), (byConsList stopv tB v ds).length = ds.length
  | [], _ => rfl
  | _ :: rest, v => by
    simp [byConsList, byConsList_length stopv tB rest]

/-- The j-th by-rule constraint gates `stop < day_j-deadline` by the j-th
fresh indicator. -/
theorem byConsList_mem (stopv : VarId) (tB : Int) (ds : List Int) :
    ∀ (v : VarId) (j : Nat), j < ds.length →
      Constraint.lin (LinExpr.var stopv) CmpOp.lt
        (LinExpr.const ((ds.getD j 0) * 86400 + tB)) (some (Sentinel.mk (v + j) true))
        ∈ byConsList stopv tB v ds := by
  induction ds with
  | nil =>
    intro v j h
    exact absurd h (by simp)
  | cons d rest ih =>
    intro v j h
    cases j with
    | zero => simp [byConsList]
    | succ j =>
      have hlt : j < rest.length := by
        have h2 : j + 1 < rest.length + 1 := by simpa using h
        omega
      have ihm := ih (v + 1) j hlt
      have hv : v + 1 + j = v + (j + 1) := by
        rw [Nat.add_assoc, Nat.add_comm 1 j]
      rw [hv] at ihm
      simp only [byConsList, List.getD_cons_succ]
      exact List.mem_cons_of_mem _ ihm

/-- Characterization of the by-rule day loop: the returned indicators are
the fresh variable ids in order, the emitted constraints are exactly
`byConsList`, and one variable is declared per day. -/
theorem byDays_spec (e : Event) (tB : Int) :
    ∀ (ds : List Int) (i : Nat) (m : ConstraintModel),
      (Event.byDays e tB i ds m).1 =
        (List.range ds.length).map (fun j => m.vars.length + j) ∧
      (Event.byDays e tB i ds m).2.constraints =
        m.constraints ++ byConsList e.stop_time tB m.vars.length ds ∧
      (Event.byDays e tB i ds m).2.vars.length = m.vars.length + ds.length ∧
      (Event.byDays e tB i ds m).2.intervals = m.intervals
  | [], i, m => by
    simp [Event.byDays, byConsList]
  | day :: rest, i, m => by
    unfold Event.byDays
    dsimp only
    have hlen : ((m.make_var (e.name ++ "_day_" ++ toString i ++ "_by") true 0 1).2.add
        (LinExpr.var e.stop_time) CmpOp.lt (LinExpr.const (day * 86400 + tB))
        (some (Sentinel.mk (m.make_var (e.name ++ "_day_" ++ toString i ++ "_by") true 0 1).1
          true))).vars.length = m.vars.length + 1 := by
      simp [ConstraintModel.make_var, ConstraintModel.add]
    have ih := byDays_spec e tB rest (i + 1)
      ((m.make_var (e.name ++ "_day_" ++ toString i ++ "_by") true 0 1).2.add
        (LinExpr.var e.stop_time) CmpOp.lt (LinExpr.const (day * 86400 + tB))
        (some (Sentinel.mk (m.make_var (e.name ++ "_day_" ++ toString i ++ "_by") true 0 1).1
          true)))
    rw [hlen] at ih
    refine ⟨?_, ?_, ?_, ?_⟩
    · rw [ih.1]
      rw [List.length_cons, List.range_succ_eq_map, List.map_cons, List.map_map]
      have hf : ((fun j => m.vars.length + j) ∘ Nat.succ) = fun j => m.vars.length + 1 + j := by
        funext j
        simp [Function.comp]
        omega
      rw [hf]
      simp [ConstraintModel.make_var]
    · rw [ih.2.1]
      simp [ConstraintModel.make_var, ConstraintModel.add, byConsList]
    · rw [ih.2.2.1]
      simp
      omega
    · rw [ih.2.2.2]
      rfl

/-- C5 (corrected): for an event with a by(deadline) rule over a finite
span, the model contains one boolean indicator per day of the span and,
under every assignment satisfying the emitted constraints, a TRUE indicator
IMPLIES the event's stop time is strictly before that day's deadline
instant (the converse does not hold: the reification is one-directional,
see the counterexample), and exactly one indicator is true — the latter
enforced only when the event is present. -/
theorem c5_by_indicator_one_directional (e : Event) (m : ConstraintModel) (span : Span)
    (tB : Int) (sol : VarId → Int) (hby : e.byT = some tB)
    (hsat : ConstraintModel.satisfied (Event.by_rule e m span) sol = true) :
    ((Event.by_rule e m span).vars.length =
      m.vars.length + (span.dates_between).length) ∧
    (∀ j, j < (span.dates_between).length → sol (m.vars.length + j) = 1 →
      sol e.stop_time < ((span.dates_between).getD j 0) * 86400 + tB) ∧
    ((span.dates_between) ≠ [] → sol e.is_present = 1 →
      ((List.range (span.dates_between).length).map
        (fun j => sol (m.vars.length + j))).sum = 1) := by
  have hspec := byDays_spec e tB span.dates_between 0 m
  unfold Event.by_rule at hsat ⊢
  rw [hby] at hsat ⊢
  dsimp only at hsat ⊢
  by_cases hemp : (Event.byDays e tB 0 span.dates_between m).1.isEmpty
  · rw [if_pos hemp] at hsat ⊢
    have hnil : span.dates_between = [] := by
      rw [hspec.1] at hemp
      have h1 : List.range span.dates_between.length = [] :=
        List.map_eq_nil_iff.mp (List.isEmpty_iff.mp hemp)
      have h2 : span.dates_between.length = 0 := by
        simpa using congrArg List.length h1
      exact List.length_eq_zero.mp h2
    refine ⟨?_, ?_, ?_⟩
    · rw [hspec.2.2.1, hnil]
    · intro j hj
      rw [hnil] at hj
      exact absurd hj (by simp)
    · intro hne
      exact absurd hnil hne
  · rw [if_neg hemp] at hsat ⊢
    have hall : ∀ c ∈ ((Event.byDays e tB 0 span.dates_between m).2.add
        (LinExpr.sumVars (Event.byDays e tB 0 span.dates_between m).1) CmpOp.eq
        (LinExpr.const 1) (some (Sentinel.mk e.is_present true))).constraints,
        Constraint.holds sol c = true := by
      unfold ConstraintModel.satisfied at hsat
      simp only [Bool.and_eq_true] at hsat
      exact List.all_eq_true.mp hsat.2
    refine ⟨?_, ?_, ?_⟩
    · have : (ConstraintModel.add (Event.byDays e tB 0 span.dates_between m).2
        (LinExpr.sumVars (Event.byDays e tB 0 span.dates_between m).1) CmpOp.eq
        (LinExpr.const 1) (some (Sentinel.mk e.is_present true))).vars =
          (Event.byDays e tB 0 span.dates_between m).2.vars := rfl
      rw [this, hspec.2.2.1]
    · intro j hj hjv
      have hmem : Constraint.lin (LinExpr.var e.stop_time) CmpOp.lt
          (LinExpr.const (((span.dates_between).getD j 0) * 86400 + tB))
          (some (Sentinel.mk (m.vars.length + j) true)) ∈
          ((Event.byDays e tB 0 span.dates_between m).2.add
            (LinExpr.sumVars (Event.byDays e tB 0 span.dates_between m).1) CmpOp.eq
            (LinExpr.const 1) (some (Sentinel.mk e.is_present true))).constraints := by
        show _ ∈ (Event.byDays e tB 0 span.dates_between m).2.constraints ++ _
        apply List.mem_append_left
        rw [hspec.2.1]
        apply List.mem_append_right
        exact byConsList_mem e.stop_time tB span.dates_between m.vars.length j hj
      have hh := hall _ hmem
      simp only [Constraint.holds, sentinelActive, LinExpr.eval, CmpOp.holds, if_true,
        Bool.or_eq_true, Bool.not_eq_true', decide_eq_true_eq, decide_eq_false_iff_not] at hh
      rcases hh with h1 | h1
      · exact absurd hjv h1
      · exact h1
    · intro _ hpres
      have hmem : Constraint.lin
          (LinExpr.sumVars (Event.byDays e tB 0 span.dates_between m).1) CmpOp.eq
          (LinExpr.const 1) (some (Sentinel.mk e.is_present true)) ∈
          ((Event.byDays e tB 0 span.dates_between m).2.add
            (LinExpr.sumVars (Event.byDays e tB 0 span.dates_between m).1) CmpOp.eq
            (LinExpr.const 1) (some (Sentinel.mk e.is_present true))).constraints := by
        show _ ∈ (Event.byDays e tB 0 span.dates_between m).2.constraints ++ _
        apply List.mem_append_right
        simp
      have hh := hall _ hmem
      simp only [Constraint.holds, sentinelActive, LinExpr.eval, CmpOp.holds, if_true,
        Bool.or_eq_true, Bool.not_eq_true', decide_eq_true_eq, decide_eq_false_iff_not] at hh
      rcases hh with h1 | h1
      · exact absurd hpres h1
      · rw [hspec.1] at h1
        rw [List.map_map] at h1
        simpa [Function.comp] using h1

/-- C5 witness: the amended statement applied to `c5demoEvent` over the
empty model and the concrete satisfying assignment `c5demoSol` (the day-1
indicator is set, so the stop time is before day 1's deadline). -/
theorem c5_by_indicator_one_directional_witness :
    c5demoSol c5demoEvent.stop_time <
      ((c5span.dates_between).getD 1 0) * 86400 + 36000 :=
  (c5_by_indicator_one_directional c5demoEvent ConstraintModel.empty c5span 36000 c5demoSol
    rfl (by decide)).2.1 1 (by decide) (by decide)

/-- C5 counterexample: under the satisfying assignment `c5sol` of the full
populate model `c5out`, the event is present and stops at 100 — strictly
before day 0's deadline instant 36000 — yet day 0's indicator (variable 4,
whose gated constraint is in the model) is 0: the indicator is NOT true
whenever stop is before the deadline, refuting the claimed
"if and only if". -/
theorem c5_indicator_false_despite_early_stop_cex :
    ConstraintModel.satisfied c5out.model c5sol = true ∧
    (Constraint.lin (LinExpr.var 1) CmpOp.lt (LinExpr.const 36000)
      (some (Sentinel.mk 4 true))) ∈ c5out.model.constraints ∧
    c5sol 2 = 1 ∧ c5sol 4 = 0 ∧ c5sol 1 < 36000 := by
  refine ⟨by decide, by decide, by decide, by decide, by decide⟩

/-- Once the cursor has reached the end, the tiling loop stops. -/
theorem subspansAux_ge (d : Int) (n : Nat) (s f : Int) (h : ¬s < f) :
    Span.subspansAux d n s f = [] := by
  cases n
  · rfl
  · unfold Span.subspansAux
    rw [if_neg h]

/-- With a zero duration the cursor never advances: each loop iteration
yields the empty piece `Span(start, start)` and the guard stays true, so the
loop never terminates (with fuel n the output is n copies of the empty
piece). -/
theorem subspansAux_zero : ∀ (n : Nat) (s f : Int), s < f →
    Span.subspansAux 0 n s f = List.replicate n (Span.mk (some s) (some s))
  | 0, _, _, _ => rfl
  | Nat.succ n, s, f, h => by
    unfold Span.subspansAux
    rw [if_pos h]
    dsimp only
    have hmin : min (s + 0) f = s := by
      rw [Int.add_zero]
      exact min_eq_left (le_of_lt h)
    rw [hmin, subspansAux_zero n s f h]
    rfl

/-- For a positive duration the loop output is independent of the fuel once
the fuel reaches `(f - s).toNat`: the loop terminates. -/
theorem subspansAux_stable (d : Int) (hd : 1 ≤ d) (f : Int) :
    ∀ (n m : Nat) (s : Int), (f - s).toNat ≤ n → (f - s).toNat ≤ m →
      Span.subspansAux d n s f = Span.subspansAux d m s f
  | 0, m, s, hn, _ => by
    have hsf : ¬s < f := by omega
    rw [subspansAux_ge d 0 s f hsf, subspansAux_ge d m s f hsf]
  | Nat.succ n, 0, s, _, hm => by
    have hsf : ¬s < f := by omega
    rw [subspansAux_ge d (Nat.succ n) s f hsf, subspansAux_ge d 0 s f hsf]
  | Nat.succ n, Nat.succ m, s, hn, hm => by
    by_cases hsf : s < f
    · unfold Span.subspansAux
      rw [if_pos hsf, if_pos hsf]
      dsimp only
      have hfin : s + 1 ≤ min (s + d) f := by
        apply le_min
        · omega
        · omega
      have hrec := subspansAux_stable d hd f n m (min (s + d) f) (by omega) (by omega)
      rw [hrec]
    · rw [subspansAux_ge d (Nat.succ n) s f hsf, subspansAux_ge d (Nat.succ m) s f hsf]

/-- The head of the tiling starts at the cursor. -/
theorem subspansAux_head (d : Int) (n : Nat) (s f : Int) :
    ∀ p ∈ (Span.subspansAux d n s f).head?, p.begins_at = some s := by
  intro p hp
  cases n
  · simp [Span.subspansAux] at hp
  · unfold Span.subspansAux at hp
    by_cases hsf : s < f
    · rw [if_pos hsf] at hp
      simp at hp
      rw [← hp]
    · rw [if_neg hsf] at hp
      simp at hp

/-- Consecutive tiling pieces share an endpoint. -/
theorem subspansAux_chain (d : Int) :
    ∀ (n : Nat) (s f : Int),
      List.Chain' (fun a b => a.finish_at = b.begins_at) (Span.subspansAux d n s f)
  | 0, _, _ => List.chain'_nil
  | Nat.succ n, s, f => by
    by_cases hsf : s < f
    · unfold Span.subspansAux
      rw [if_pos hsf]
      dsimp only
      rw [List.chain'_cons']
      constructor
      · intro p hp
        rw [subspansAux_head d n (min (s + d) f) f p hp]
      · exact subspansAux_chain d n (min (s + d) f) f
    · rw [subspansAux_ge d (Nat.succ n) s f hsf]
      exact List.chain'_nil

/-- Every tiling piece runs from its own start for the given duration,
clamped to the overall finish. -/
theorem subspansAux_shape (d : Int) :
    ∀ (n : Nat) (s f : Int), ∀ p ∈ Span.subspansAux d n s f,
      ∃ b, p.begins_at = some b ∧ p.finish_at = some (min (b + d) f)
  | 0, _, _ => by
    intro p hp
    simp [Span.subspansAux] at hp
  | Nat.succ n, s, f => by
    intro p hp
    by_cases hsf : s < f
    · unfold Span.subspansAux at hp
      rw [if_pos hsf] at hp
      rcases List.mem_cons.mp hp with h1 | h1
      · exact ⟨s, by rw [h1], by rw [h1]⟩
      · exact subspansAux_shape d n (min (s + d) f) f p h1
    · rw [subspansAux_ge d (Nat.succ n) s f hsf] at hp
      simp at hp

/-- With a positive duration and enough fuel, the tiling is nonempty and its
final piece finishes exactly at the overall finish (the final piece is
clamped). -/
theorem subspansAux_last (d : Int) (hd : 1 ≤ d) (f : Int) :
    ∀ (n : Nat) (s : Int), s < f → (f - s).toNat ≤ n →
      ∃ p, (Span.subspansAux d n s f).getLast? = some p ∧ p.finish_at = some f
  | 0, s, hsf, hn => by
    exact absurd hn (by omega)
  | Nat.succ n, s, hsf, hn => by
    unfold Span.subspansAux
    rw [if_pos hsf]
    dsimp only
    by_cases hff : min (s + d) f < f
    · have hfin : s + 1 ≤ min (s + d) f := by
        apply le_min
        · omega
        · omega
      obtain ⟨p, hlast, hpf⟩ := subspansAux_last d hd f n (min (s + d) f) hff (by omega)
      refine ⟨p, ?_, hpf⟩
      have hne : Span.subspansAux d n (min (s + d) f) f ≠ [] := by
        intro hnil
        rw [hnil] at hlast
        simp at hlast
      match hl : Span.subspansAux d n (min (s + d) f) f with
      | [] => exact absurd hl hne
      | q :: rest =>
        rw [List.getLast?_cons_cons]
        rw [hl] at hlast
        exact hlast
    · have hfeq : min (s + d) f = f := by
        have : min (s + d) f ≤ f := min_le_right _ _
        omega
      rw [hfeq]
      rw [subspansAux_ge d n f f (by omega)]
      exact ⟨Span.mk (some s) (some f), rfl, rfl⟩

/-- C8 counterexample: tiling a finite span by a zero duration is NOT
rejected as an error — the source has no error path at all — instead the
generator yields the empty piece `Span(start, start)` over and over: with
the default fuel the output is ten copies of the empty piece, and giving the
loop one more unit of fuel yields strictly more output (the loop guard never
becomes false, i.e. the generator never terminates). -/
theorem c8_zero_duration_not_rejected_cex :
    (Span.mk (some 0) (some 10)).subspans 0 =
      List.replicate 10 (Span.mk (some 0) (some 0)) ∧
    Span.subspansAux 0 11 0 10 ≠ Span.subspansAux 0 10 0 10 := by
  refine ⟨by decide, by decide⟩

/-- C8 (corrected): tiling by a ZERO duration is not rejected: the cursor
never advances, so with fuel n the loop yields n empty pieces and never
reaches its exit condition (non-termination). For every POSITIVE duration
the tiling terminates (the output is stable once the fuel reaches
`(finish - start).toNat`), consecutive pieces share endpoints, every piece
spans from its start for the given duration clamped to `finish_at`, and the
final piece finishes exactly at `finish_at` (so it may be shorter). -/
theorem c8_tile_zero_loops_positive_terminates :
    (∀ (s f : Int) (n : Nat), s < f →
      Span.subspansAux 0 n s f = List.replicate n (Span.mk (some s) (some s))) ∧
    (∀ (d s f : Int) (m : Nat), 1 ≤ d → (f - s).toNat ≤ m →
      Span.subspansAux d m s f = (Span.mk (some s) (some f)).subspans d) ∧
    (∀ (d s f : Int) (n : Nat),
      List.Chain' (fun a b => a.finish_at = b.begins_at) (Span.subspansAux d n s f)) ∧
    (∀ (d s f : Int) (n : Nat), ∀ p ∈ Span.subspansAux d n s f,
      ∃ b, p.begins_at = some b ∧ p.finish_at = some (min (b + d) f)) ∧
    (∀ (d s f : Int), 1 ≤ d → s < f →
      ∃ p, ((Span.mk (some s) (some f)).subspans d).getLast? = some p ∧
        p.finish_at = some f) := by
  refine ⟨?_, ?_, ?_, ?_, ?_⟩
  · intro s f n h
    exact subspansAux_zero n s f h
  · intro d s f m hd hm
    exact subspansAux_stable d hd f m (f - s).toNat s hm (le_refl _)
  · intro d s f n
    exact subspansAux_chain d n s f
  · intro d s f n p hp
    exact subspansAux_shape d n s f p hp
  · intro d s f hd hsf
    exact subspansAux_last d hd f (f - s).toNat s hsf (le_refl _)

/-- C8 witness: the amended statement applied to concrete inputs — zero
duration over [0,10) with fuel 3 yields three empty pieces, and duration 4
over [0,10) is fuel-stable at fuel 12. -/
theorem c8_tile_zero_loops_positive_terminates_witness :
    Span.subspansAux 0 3 0 10 = List.replicate 3 (Span.mk (some 0) (some 0)) ∧
    Span.subspansAux 4 12 0 10 = (Span.mk (some 0) (some 10)).subspans 4 :=
  And.intro (c8_tile_zero_loops_positive_terminates.1 0 10 3 (by decide))
    (c8_tile_zero_loops_positive_terminates.2.1 4 0 10 12 (by decide) (by decide))

/-- Bounds checking splits over list append. -/
theorem varsOk_append (sol : VarId → Int) :
    ∀ (l1 l2 : List VarDecl) (i : Nat),
      varsOk sol i (l1 ++ l2) = (varsOk sol i l1 && varsOk sol (i + l1.length) l2)
  | [], l2, i => by
    simp [varsOk]
  | vd :: rest, l2, i => by
    show ((decide (vd.lb ≤ sol i) && decide (sol i ≤ vd.ub)) &&
      varsOk sol (i + 1) (rest ++ l2)) = _
    rw [varsOk_append sol rest l2 (i + 1), ← Bool.and_assoc]
    have hidx : i + 1 + rest.length = i + (vd :: rest).length := by
      simp [List.length_cons]
      omega
    rw [hidx]
    rfl

/-- Value forced onto the scalar returned by Frequency.tension_solver: under
any assignment satisfying the emitted constraints (with a positive
tolerance), the scalar equals SCALAR_MAX minus |elapsed - mean| divided by
the tolerance — a function of elapsed, mean and tolerance only. -/
theorem freq_tension_scalar_value (fr : Frequency) (elapsed : VarId)
    (m : ConstraintModel) (sol : VarId → Int) (ht : 0 < fr.tolerance)
    (hsat : ConstraintModel.satisfied (Frequency.tension_solver fr elapsed m).2 sol = true) :
    sol (Frequency.tension_solver fr elapsed m).1 =
      SCALAR_MAX - |sol elapsed - fr.mean| / fr.tolerance := by
  unfold Frequency.tension_solver at hsat ⊢
  simp [ConstraintModel.make_var, ConstraintModel.add, ConstraintModel.add_abs,
    ConstraintModel.satisfied, varsOk_append sol, varsOk, Constraint.holds,
    sentinelActive, LinExpr.eval, CmpOp.holds] at hsat ⊢
  obtain ⟨⟨hbounds, _⟩, _, hd, ha, he, hr⟩ := hsat
  have hb : 0 ≤ sol (m.vars.length + 3) := hbounds.2.2.2.2.1
  have habs : sol (m.vars.length + 1) = |sol elapsed - fr.mean| := by
    rw [ha, hd]
  have hdiv : |sol elapsed - fr.mean| / fr.tolerance =
      SCALAR_MAX - sol (m.vars.length + 2) := by
    rw [← habs, he]
    have hc : (SCALAR_MAX - sol (m.vars.length + 2)) * fr.tolerance +
        sol (m.vars.length + 3) =
        sol (m.vars.length + 3) + (SCALAR_MAX - sol (m.vars.length + 2)) * fr.tolerance := by
      ring
    rw [hc, Int.add_mul_ediv_right _ _ (ne_of_gt ht), Int.ediv_eq_zero_of_lt hb hr]
    ring
  simp only [SCALAR_MAX] at hdiv ⊢
  omega

/-- C10 (confirmed): the score term returned by Chore.tension_solver is the
raw tension scalar of a Frequency.tension_solver invocation: under every
satisfying assignment its value is SCALAR_MAX - |elapsed - mean|/tolerance,
a function of elapsed, mean and tolerance only — the chore's duration never
enters, because the duration-weighted `reward` variable the method also
constructs is discarded rather than returned. The second conjunct shows
Frequency.tension_solver alone forces the identical value. -/
theorem c10_tension_score_ignores_duration :
    (∀ (ch : Chore) (elapsed : VarId) (m : ConstraintModel) (sol : VarId → Int),
      0 < ch.frequency.tolerance →
      ConstraintModel.satisfied (Chore.tension_solver ch elapsed m).2 sol = true →
      sol (Chore.tension_solver ch elapsed m).1 =
        SCALAR_MAX - |sol elapsed - ch.frequency.mean| / ch.frequency.tolerance) ∧
    (∀ (fr : Frequency) (elapsed : VarId) (m : ConstraintModel) (sol : VarId → Int),
      0 < fr.tolerance →
      ConstraintModel.satisfied (Frequency.tension_solver fr elapsed m).2 sol = true →
      sol (Frequency.tension_solver fr elapsed m).1 =
        SCALAR_MAX - |sol elapsed - fr.mean| / fr.tolerance) := by
  constructor
  · intro ch elapsed m sol ht hsat
    unfold Chore.tension_solver at hsat ⊢
    exact freq_tension_scalar_value ch.frequency elapsed _ sol ht hsat
  · intro fr elapsed m sol ht hsat
    exact freq_tension_scalar_value fr elapsed m sol ht hsat

/-- C10 witness: the theorem applied to the concrete chore `c10ch` (duration
7) and frequency `c10fr` with elapsed 22: both returned scalars are forced
to 1 = 3 - |22 - 10| / 5, regardless of the duration. -/
theorem c10_tension_score_ignores_duration_witness :
    c10solC (Chore.tension_solver c10ch 99 ConstraintModel.empty).1 =
      SCALAR_MAX - |c10solC 99 - c10ch.frequency.mean| / c10ch.frequency.tolerance ∧
    c10solF (Frequency.tension_solver c10fr 99 ConstraintModel.empty).1 =
      SCALAR_MAX - |c10solF 99 - c10fr.mean| / c10fr.tolerance :=
  And.intro
    (c10_tension_score_ignores_duration.1 c10ch 99 ConstraintModel.empty c10solC
      (by decide) (by decide))
    (c10_tension_score_ignores_duration.2 c10fr 99 ConstraintModel.empty c10solF
      (by decide) (by decide))
